import Mathlib

/-!
Shallow embedding of `bw2landbalancer/database_land_balancer.py`
(class `DatabaseLandBalancer`).

External collaborators are modelled as parameters:
* the brightway2 environment (`bd.databases`, `bd.Database(name)`) becomes an
  `Env` value holding the registered database names and, for each database
  name, the list of items (elementary flows / activities) with their names
  and keys;
* the per-activity resampler (`ActivityLandBalancer.generate_samples`, whose
  source is not part of this repository excerpt) is modelled from the spec:
  it produces a finite sequence of (numeric-block, index-block) pairs, which
  we pass to `add_samples_for_act` directly;
* the presamples package writer (`create_presamples_package` composed with
  `split_inventory_presamples`) becomes function parameters of
  `create_presamples`.

Machine floats of the sample matrices are modelled as rationals; none of the
verified properties inspects numeric values, only shapes and bookkeeping.
-/

/-- Whether `p` occurs as a contiguous sublist of `s`. -/
def charsInfixOf (p : List Char) : List Char → Bool
  | [] => p.isEmpty
  | c :: t => p.isPrefixOf (c :: t) || charsInfixOf p t

/-- Python substring containment: `pat in s` for strings. -/
def pyIn (pat s : String) : Bool :=
  charsInfixOf pat.toList s.toList

/-- A brightway2 key: a (database name, code) pair. -/
abbrev BwKey := String × String

/-- An item of a brightway2 database: an elementary flow or an activity,
with its name (`item['name']`) and its key (`item.key`). -/
structure BwItem where
  name : String
  key : BwKey
deriving Repr, DecidableEq

/-- The brightway2 environment visible to `DatabaseLandBalancer`:
`databases` models `bd.databases` (the names of registered databases) and
`items d` models iterating `bd.Database(d)`. -/
structure Env where
  databases : List String
  items : String → List BwItem

/-- A 2-D numpy array of samples: a list of rows together with the column
count (`shape[1]`). -/
structure NpMat where
  rows : List (List Rat)
  ncols : Nat
deriving Repr, DecidableEq

/-- Rectangularity of a 2-D numpy array: every row has `ncols` entries. -/
def NpMat.wf (m : NpMat) : Prop :=
  ∀ r ∈ m.rows, r.length = m.ncols

/-- The `ValueError` numpy raises when concatenated arrays disagree on a
non-concatenation dimension. -/
def concatErrMsg : String :=
  "ValueError: all the input array dimensions except for the concatenation axis must match exactly"

/-- Models `np.concatenate([a, b], axis=0)` on 2-D arrays: succeeds when the column
counts agree, otherwise raises `ValueError`. -/
def npConcatRows (a b : NpMat) : Except String NpMat :=
  if a.ncols = b.ncols then
    .ok ⟨a.rows ++ b.rows, a.ncols⟩
  else
    .error concatErrMsg

/-- One entry of an index block yielded by the resampler: either a 2-tuple
(flow key, activity key) or a 3-tuple (flow key, activity key, type tag). -/
inductive IdxEntry where
  | two (flow act : BwKey)
  | three (flow act : BwKey) (tag : String)
deriving Repr, DecidableEq

/-- Python `len(row)` for an index entry. -/
def IdxEntry.len : IdxEntry → Nat
  | .two _ _ => 2
  | .three _ _ _ => 3

/-- Python `row[0]` of an index entry. -/
def IdxEntry.at0 : IdxEntry → BwKey
  | .two a _ => a
  | .three a _ _ => a

/-- Python `row[1]` of an index entry. -/
def IdxEntry.at1 : IdxEntry → BwKey
  | .two _ b => b
  | .three _ b _ => b

/-- One (numeric-block, index-block) pair yielded by the resampler
(`data[0]`, `data[1]` in the source). -/
abbrev Block := NpMat × List IdxEntry

/-- The state of a `DatabaseLandBalancer` instance. -/
structure Balancer where
  database_name : String
  biosphere : String
  group : String
  matrix_indices : List IdxEntry
  matrix_samples : Option NpMat
  land_in_keys : List BwKey
  land_out_keys : List BwKey
  all_land_keys : List BwKey
deriving Repr, DecidableEq

/-- Row count of the accumulated sample matrix (0 when still unset). -/
def sampleRows (b : Balancer) : Nat :=
  match b.matrix_samples with
  | none => 0
  | some m => m.rows.length

/-- The classifier loop of `DatabaseLandBalancer.__init__`:
`for ef in bd.Database(biosphere): for pattern in patterns:
   if pattern in ef.name: keys.append(ef.key)`. -/
def classify (flows : List BwItem) (patterns : List String) : List BwKey :=
  flows.foldl
    (fun acc ef =>
      patterns.foldl
        (fun acc2 p => if pyIn p ef.name then acc2 ++ [ef.key] else acc2)
        acc)
    []

/-- Embeds `DatabaseLandBalancer.__init__`: validates that both database names are
registered, then builds the land-flow classification and the empty
accumulation state.  A raised `ValueError` becomes `Except.error`. -/
def initBalancer (env : Env) (database_name : String)
    (biosphere : String := "biosphere3") (group : String := "land")
    (land_from_patterns : List String := ["Transformation, from"])
    (land_to_patterns : List String := ["Transformation, to"]) :
    Except String Balancer :=
  if ¬ env.databases.contains database_name then
    .error ("Database " ++ database_name ++ " not imported")
  else if ¬ env.databases.contains biosphere then
    .error ("Database " ++ biosphere ++ " not imported")
  else
    let land_in_keys := classify (env.items biosphere) land_from_patterns
    let land_out_keys := classify (env.items biosphere) land_to_patterns
    .ok
      { database_name := database_name
        biosphere := biosphere
        group := group
        matrix_indices := []
        matrix_samples := none
        land_in_keys := land_in_keys
        land_out_keys := land_out_keys
        all_land_keys := land_in_keys ++ land_out_keys }

/-- Result of a stateful operation that can raise: on error we keep both the
Python exception message and the balancer state at the moment of the raise
(Python mutates `self` in place, so state changes made before the raise
survive it). -/
abbrev BalResult := Except (String × Balancer) Balancer

/-- One iteration of the loop body of `add_samples_for_act` for a single
yielded `data = (numeric block, index block)` pair:

    if len(data[1][0]) == 2:
        for row in data[1]:
            self.matrix_indices.append((row[0], row[1], 'biosphere'))
    else:
        self.matrix_indices.extend(data[1])
    if self.matrix_samples is None:
        self.matrix_samples = data[0]
    else:
        self.matrix_samples = np.concatenate([self.matrix_samples, data[0]], axis=0)

`data[1][0]` on an empty index block raises `IndexError` before any
mutation. -/
def processPair (b : Balancer) (num : NpMat) (idx : List IdxEntry) : BalResult :=
  match idx with
  | [] => .error ("IndexError: list index out of range", b)
  | e0 :: _ =>
    let b1 :=
      if e0.len = 2 then
        { b with matrix_indices :=
            b.matrix_indices ++ idx.map (fun r => IdxEntry.three r.at0 r.at1 "biosphere") }
      else
        { b with matrix_indices := b.matrix_indices ++ idx }
    match b1.matrix_samples with
    | none => .ok { b1 with matrix_samples := some num }
    | some m =>
      match npConcatRows m num with
      | .ok m' => .ok { b1 with matrix_samples := some m' }
      | .error msg => .error (msg, b1)

/-- The loop of `add_samples_for_act` over the sequence of pairs yielded by
the resampler. -/
def runBlocks : Balancer → List Block → BalResult
  | b, [] => .ok b
  | b, (num, idx) :: rest =>
    match processPair b num idx with
    | .ok b' => runBlocks b' rest
    | .error e => .error e

/-- Embeds `DatabaseLandBalancer.add_samples_for_act`: the resampler
(`ActivityLandBalancer(act_key, self).generate_samples(iterations)`) is
external to this excerpt; `gen` is the finite sequence of
(numeric-block, index-block) pairs it yields. -/
def add_samples_for_act (b : Balancer) (gen : List Block) : BalResult :=
  runBlocks b gen

/-- A sequence of `add_samples_for_act` calls, one list of yielded blocks per
call; stops at the first raised exception. -/
def runCalls : Balancer → List (List Block) → BalResult
  | b, [] => .ok b
  | b, c :: cs =>
    match add_samples_for_act b c with
    | .ok b' => runCalls b' cs
    | .error e => .error e

/-- The loop of `add_samples_for_all_acts` over a list of activity keys,
`res k` being the blocks the resampler yields for activity `k`. -/
def runActs (res : BwKey → List Block) : Balancer → List BwKey → BalResult
  | b, [] => .ok b
  | b, k :: ks =>
    match add_samples_for_act b (res k) with
    | .ok b' => runActs res b' ks
    | .error e => .error e

/-- Embeds `DatabaseLandBalancer.add_samples_for_all_acts`: snapshots
`[act.key for act in bd.Database(self.database_name)]` and calls
`add_samples_for_act` for each key in order. -/
def add_samples_for_all_acts (env : Env) (res : BwKey → List Block)
    (b : Balancer) : BalResult :=
  runActs res b ((env.items b.database_name).map BwItem.key)

/-- Seed policy accepted by the package writer. -/
inductive Seed where
  | noSeed
  | int (n : Int)
  | sequential
deriving Repr, DecidableEq

/-- Observable outcome of `create_presamples`: either the warning-and-return
no-op, or the (id, dirpath) pair returned by the package writer. -/
inductive CPResult where
  | warned
  | written (id dirpath : String)
deriving Repr, DecidableEq

/-- Embeds `DatabaseLandBalancer.create_presamples`.  Here `split` models
`split_inventory_presamples` and `writer` models
`create_presamples_package`; both are external collaborators.  The result
pairs the observable outcome with the balancer state after the call. -/
def create_presamples {α : Type} (split : NpMat → List IdxEntry → α)
    (writer : α → Option String → Option String → Bool → Option String → Seed → String × String)
    (b : Balancer) (name id_ : Option String) (overwrite : Bool)
    (dirpath : Option String) (seed : Seed) : CPResult × Balancer :=
  match b.matrix_samples with
  | none => (.warned, b)
  | some m =>
    if b.matrix_indices.isEmpty then (.warned, b)
    else
      let w := writer (split m b.matrix_indices) name id_ overwrite dirpath seed
      (.written w.1 w.2, b)

/-- The balancer state after an operation, whether it returned normally or
raised (Python mutations made before a raise survive on the object). -/
def resState : BalResult → Balancer
  | .ok b => b
  | .error (_, b) => b

/-- Total row count contributed by one call's yielded blocks. -/
def blocksRows (blocks : List Block) : Nat :=
  (blocks.map (fun p => p.1.rows.length)).sum

/-- Total row count across a sequence of calls. -/
def callsRows (calls : List (List Block)) : Nat :=
  (calls.map blocksRows).sum

/-- Total index-entry count contributed by one call's yielded blocks. -/
def blocksIdxLen (blocks : List Block) : Nat :=
  (blocks.map (fun p => p.2.length)).sum

/-- The entries actually appended to `matrix_indices` for one index block:
when the first entry has length 2 every entry is rebuilt as a 3-tuple tagged
`'biosphere'`, otherwise the block is extended unchanged. -/
def appliedIdx (idx : List IdxEntry) : List IdxEntry :=
  match idx with
  | [] => []
  | e0 :: _ =>
    if e0.len = 2 then idx.map (fun r => IdxEntry.three r.at0 r.at1 "biosphere")
    else idx

/-- Total index-entry count across a sequence of calls. -/
def callsIdxLen (calls : List (List Block)) : Nat :=
  (calls.map blocksIdxLen).sum

/-- Configuration and classification fields shared by two balancer states. -/
def sameConfig (b1 b2 : Balancer) : Prop :=
  b1.database_name = b2.database_name ∧ b1.biosphere = b2.biosphere ∧
  b1.group = b2.group ∧ b1.land_in_keys = b2.land_in_keys ∧
  b1.land_out_keys = b2.land_out_keys ∧ b1.all_land_keys = b2.all_land_keys

/-- A small concrete brightway2 environment: one inventory database `db`
with one activity, and a `biosphere3` registry with three flows. -/
def env0 : Env where
  databases := ["db", "biosphere3"]
  items := fun d =>
    if d = "biosphere3" then
      [⟨"Transformation, from forest", ("biosphere3", "f1")⟩,
       ⟨"Transformation, to arable land", ("biosphere3", "t1")⟩,
       ⟨"Occupation, annual crop", ("biosphere3", "o1")⟩]
    else if d = "db" then
      [⟨"wheat production", ("db", "a1")⟩]
    else []

/-- The balancer `initBalancer env0 "db"` constructs (default patterns). -/
def bal0 : Balancer where
  database_name := "db"
  biosphere := "biosphere3"
  group := "land"
  matrix_indices := []
  matrix_samples := none
  land_in_keys := [("biosphere3", "f1")]
  land_out_keys := [("biosphere3", "t1")]
  all_land_keys := [("biosphere3", "f1"), ("biosphere3", "t1")]

/-- The balancer constructed over `env0` with the overlapping from-patterns
`["Transformation, from", "Transformation,"]`: the forest flow matches both
from-patterns and is recorded twice. -/
def balDup : Balancer where
  database_name := "db"
  biosphere := "biosphere3"
  group := "land"
  matrix_indices := []
  matrix_samples := none
  land_in_keys := [("biosphere3", "f1"), ("biosphere3", "f1"), ("biosphere3", "t1")]
  land_out_keys := [("biosphere3", "t1")]
  all_land_keys := [("biosphere3", "f1"), ("biosphere3", "f1"),
    ("biosphere3", "t1"), ("biosphere3", "t1")]

/-- A 2-row, 3-column numeric block (iterations = 3). -/
def mat3a : NpMat := ⟨[[1, 2, 3], [4, 5, 6]], 3⟩

/-- A 1-row, 3-column numeric block. -/
def mat3b : NpMat := ⟨[[7, 8, 9]], 3⟩

/-- An index block of 2-element tuples, one per row of `mat3a`. -/
def idx2a : List IdxEntry :=
  [.two ("biosphere3", "f1") ("db", "a1"), .two ("biosphere3", "t1") ("db", "a1")]

/-- An index block of pre-formed 3-element tuples, one per row of `mat3b`. -/
def idx3b : List IdxEntry :=
  [.three ("biosphere3", "f1") ("db", "a1") "biosphere"]

/-- State of `bal0` after processing the pair `(mat3a, idx2a)`. -/
def balA : Balancer :=
  { bal0 with
    matrix_indices := [.three ("biosphere3", "f1") ("db", "a1") "biosphere",
                       .three ("biosphere3", "t1") ("db", "a1") "biosphere"],
    matrix_samples := some mat3a }

/-- State of `bal0` after processing the pair `(mat3b, idx3b)`. -/
def balB : Balancer :=
  { bal0 with matrix_indices := idx3b, matrix_samples := some mat3b }

/-- State of `bal0` after the calls `[(mat3a, idx2a)]` then `[(mat3b, idx3b)]`. -/
def balC1 : Balancer :=
  { bal0 with
    matrix_indices := [.three ("biosphere3", "f1") ("db", "a1") "biosphere",
                       .three ("biosphere3", "t1") ("db", "a1") "biosphere",
                       .three ("biosphere3", "f1") ("db", "a1") "biosphere"],
    matrix_samples := some ⟨[[1, 2, 3], [4, 5, 6], [7, 8, 9]], 3⟩ }

/-- A 1-row block with 100 columns (iterations = 100). -/
def mat100 : NpMat := ⟨[List.replicate 100 0], 100⟩

/-- A 1-row block with 50 columns (iterations = 50). -/
def mat50 : NpMat := ⟨[List.replicate 50 0], 50⟩

/-- A one-entry pre-tagged index block. -/
def idxT : List IdxEntry :=
  [.three ("biosphere3", "f1") ("db", "a1") "biosphere"]

/-- State of `bal0` after one successful call at 100 iterations. -/
def bal100 : Balancer :=
  { bal0 with matrix_indices := idxT, matrix_samples := some mat100 }

/-- A trivial stand-in for `split_inventory_presamples`. -/
def split0 (m : NpMat) (idx : List IdxEntry) : NpMat × List IdxEntry :=
  (m, idx)

/-- A stand-in for `create_presamples_package` returning a fixed package. -/
def writer0 (_d : NpMat × List IdxEntry) (_name _id : Option String)
    (_ow : Bool) (_dp : Option String) (_s : Seed) : String × String :=
  ("pkg-id", "pkg-dir")

/-- A resampler yielding one well-formed pair for every activity. -/
def res0 : BwKey → List Block := fun _ => [(mat3a, idx2a)]

/-- A resampler yielding a malformed (empty) index block for every
activity. -/
def resBad : BwKey → List Block := fun _ => [(mat3a, [])]

theorem sameConfig_refl (b : Balancer) : sameConfig b b :=
  ⟨rfl, rfl, rfl, rfl, rfl, rfl⟩

theorem sameConfig_trans {b1 b2 b3 : Balancer} (h1 : sameConfig b1 b2)
    (h2 : sameConfig b2 b3) : sameConfig b1 b3 := by
  obtain ⟨a1, a2, a3, a4, a5, a6⟩ := h1
  obtain ⟨c1, c2, c3, c4, c5, c6⟩ := h2
  exact ⟨a1.trans c1, a2.trans c2, a3.trans c3, a4.trans c4, a5.trans c5, a6.trans c6⟩

theorem appliedIdx_length (idx : List IdxEntry) :
    (appliedIdx idx).length = idx.length := by
  unfold appliedIdx
  match idx with
  | [] => rfl
  | e0 :: rest =>
    by_cases h : e0.len = 2 <;> simp [h]

theorem processPair_ok_spec {b : Balancer} {num : NpMat} {idx : List IdxEntry}
    {b' : Balancer} (h : processPair b num idx = .ok b') :
    b'.matrix_indices = b.matrix_indices ++ appliedIdx idx ∧
    sampleRows b' = sampleRows b + num.rows.length ∧
    (∃ m', b'.matrix_samples = some m') ∧
    idx ≠ [] ∧
    sameConfig b' b := by
  match hidx : idx with
  | [] => simp [processPair] at h
  | e0 :: rest =>
    unfold processPair at h
    by_cases h2 : e0.len = 2 <;>
      simp only [h2, if_true, if_false, reduceIte] at h <;>
      rcases hms : b.matrix_samples with _ | m <;>
      simp only [hms] at h
    · rw [Except.ok.injEq] at h
      subst h
      refine ⟨by simp [appliedIdx, h2], ?_, ⟨num, rfl⟩, by simp, sameConfig_refl _⟩
      simp [sampleRows, hms]
    · by_cases hc : m.ncols = num.ncols
      · simp only [npConcatRows, hc, reduceIte] at h
        rw [Except.ok.injEq] at h
        subst h
        refine ⟨by simp [appliedIdx, h2], ?_, ⟨_, rfl⟩, by simp, sameConfig_refl _⟩
        simp [sampleRows, hms]
      · simp only [npConcatRows, hc, reduceIte] at h
        exact Except.noConfusion h
    · rw [Except.ok.injEq] at h
      subst h
      refine ⟨by simp [appliedIdx, h2], ?_, ⟨num, rfl⟩, by simp, sameConfig_refl _⟩
      simp [sampleRows, hms]
    · by_cases hc : m.ncols = num.ncols
      · simp only [npConcatRows, hc, reduceIte] at h
        rw [Except.ok.injEq] at h
        subst h
        refine ⟨by simp [appliedIdx, h2], ?_, ⟨_, rfl⟩, by simp, sameConfig_refl _⟩
        simp [sampleRows, hms]
      · simp only [npConcatRows, hc, reduceIte] at h
        exact Except.noConfusion h

theorem processPair_mismatch {b : Balancer} {m num : NpMat} {idx : List IdxEntry}
    (hms : b.matrix_samples = some m) (hc : ¬ num.ncols = m.ncols)
    (hne : idx ≠ []) :
    processPair b num idx =
      .error (concatErrMsg,
        { b with matrix_indices := b.matrix_indices ++ appliedIdx idx }) := by
  match idx with
  | [] => exact absurd rfl hne
  | e0 :: rest =>
    have hc' : ¬ m.ncols = num.ncols := fun h => hc h.symm
    by_cases h2 : e0.len = 2 <;>
      simp [processPair, hms, npConcatRows, hc', h2, appliedIdx]

theorem processPair_resState_config (b : Balancer) (num : NpMat)
    (idx : List IdxEntry) : sameConfig (resState (processPair b num idx)) b := by
  match idx with
  | [] => exact sameConfig_refl b
  | e0 :: rest =>
    by_cases h2 : e0.len = 2 <;>
      rcases hms : b.matrix_samples with _ | m <;>
      simp [processPair, hms, h2, npConcatRows, resState, sameConfig] <;>
      by_cases hc : m.ncols = num.ncols <;>
      simp [hc, resState, sameConfig]

theorem runBlocks_first_error {b : Balancer} {num : NpMat}
    {idx : List IdxEntry} {rest : List Block} {e : String × Balancer}
    (h : processPair b num idx = .error e) :
    runBlocks b ((num, idx) :: rest) = .error e := by
  simp [runBlocks, h]

theorem runBlocks_ok_spec : ∀ {blocks : List Block} {b b' : Balancer},
    runBlocks b blocks = .ok b' →
    b'.matrix_indices.length = b.matrix_indices.length + blocksIdxLen blocks ∧
    sampleRows b' = sampleRows b + blocksRows blocks ∧
    (∃ t, b'.matrix_indices = b.matrix_indices ++ t) ∧
    sameConfig b' b ∧
    (blocks ≠ [] → b'.matrix_samples.isSome = true) := by
  intro blocks
  induction blocks with
  | nil =>
    intro b b' h
    simp only [runBlocks] at h
    rw [Except.ok.injEq] at h
    subst h
    exact ⟨by simp [blocksIdxLen], by simp [blocksRows], ⟨[], by simp⟩,
      sameConfig_refl _, fun hne => absurd rfl hne⟩
  | cons p rest ih =>
    intro b b' h
    obtain ⟨num, idx⟩ := p
    unfold runBlocks at h
    rcases hp : processPair b num idx with e | b1
    · rw [hp] at h
      exact Except.noConfusion h
    · rw [hp] at h
      obtain ⟨hidx1, hrows1, ⟨m1, hm1⟩, hne1, hcfg1⟩ := processPair_ok_spec hp
      obtain ⟨hidx2, hrows2, ⟨t2, ht2⟩, hcfg2, hsome2⟩ := ih h
      refine ⟨?_, ?_, ⟨appliedIdx idx ++ t2, ?_⟩,
        sameConfig_trans hcfg2 hcfg1, fun _ => ?_⟩
      · have hb1 : b1.matrix_indices.length = b.matrix_indices.length + idx.length := by
          rw [hidx1]
          simp [appliedIdx_length]
        simp only [blocksIdxLen, List.map_cons, List.sum_cons] at hidx2 ⊢
        omega
      · simp only [blocksRows, List.map_cons, List.sum_cons] at hrows2 ⊢
        omega
      · rw [ht2, hidx1, List.append_assoc]
      · match rest with
        | [] =>
          simp only [runBlocks] at h
          rw [Except.ok.injEq] at h
          subst h
          simp [hm1]
        | r :: rs => exact hsome2 (by simp)

theorem runBlocks_resState_config : ∀ (blocks : List Block) (b : Balancer),
    sameConfig (resState (runBlocks b blocks)) b := by
  intro blocks
  induction blocks with
  | nil => intro b; exact sameConfig_refl b
  | cons p rest ih =>
    intro b
    obtain ⟨num, idx⟩ := p
    unfold runBlocks
    rcases hp : processPair b num idx with e | b1
    · have h1 := processPair_resState_config b num idx
      rw [hp] at h1
      exact h1
    · have h1 := processPair_resState_config b num idx
      rw [hp] at h1
      exact sameConfig_trans (ih b1) h1

theorem runBlocks_cons (b : Balancer) (num : NpMat) (idx : List IdxEntry)
    (rest : List Block) :
    runBlocks b ((num, idx) :: rest) =
      match processPair b num idx with
      | .ok b1 => runBlocks b1 rest
      | .error e => .error e := rfl

theorem runCalls_cons (b : Balancer) (c : List Block)
    (cs : List (List Block)) :
    runCalls b (c :: cs) =
      match add_samples_for_act b c with
      | .ok b1 => runCalls b1 cs
      | .error e => .error e := rfl

theorem runActs_cons (res : BwKey → List Block) (b : Balancer) (k : BwKey)
    (ks : List BwKey) :
    runActs res b (k :: ks) =
      match add_samples_for_act b (res k) with
      | .ok b1 => runActs res b1 ks
      | .error e => .error e := rfl

theorem runCalls_append : ∀ (xs ys : List (List Block)) (b : Balancer),
    runCalls b (xs ++ ys) =
      match runCalls b xs with
      | .ok b1 => runCalls b1 ys
      | .error e => .error e := by
  intro xs
  induction xs with
  | nil => intro ys b; rfl
  | cons c cs ih =>
    intro ys b
    rw [List.cons_append, runCalls_cons, runCalls_cons]
    rcases h : add_samples_for_act b c with e | b1
    · rfl
    · exact ih ys b1

theorem runCalls_ok_spec : ∀ {calls : List (List Block)} {b b' : Balancer},
    runCalls b calls = .ok b' →
    b'.matrix_indices.length = b.matrix_indices.length + callsIdxLen calls ∧
    sampleRows b' = sampleRows b + callsRows calls ∧
    (∃ t, b'.matrix_indices = b.matrix_indices ++ t) ∧
    sameConfig b' b := by
  intro calls
  induction calls with
  | nil =>
    intro b b' h
    simp only [runCalls] at h
    rw [Except.ok.injEq] at h
    subst h
    exact ⟨by simp [callsIdxLen], by simp [callsRows], ⟨[], by simp⟩,
      sameConfig_refl _⟩
  | cons c cs ih =>
    intro b b' h
    rw [runCalls_cons] at h
    rcases hc : add_samples_for_act b c with e | b1
    · rw [hc] at h
      exact Except.noConfusion h
    · rw [hc] at h
      obtain ⟨hidx1, hrows1, ⟨t1, ht1⟩, hcfg1, _⟩ := runBlocks_ok_spec hc
      obtain ⟨hidx2, hrows2, ⟨t2, ht2⟩, hcfg2⟩ := ih h
      refine ⟨?_, ?_, ⟨t1 ++ t2, ?_⟩, sameConfig_trans hcfg2 hcfg1⟩
      · simp only [callsIdxLen, List.map_cons, List.sum_cons] at hidx2 ⊢
        omega
      · simp only [callsRows, List.map_cons, List.sum_cons] at hrows2 ⊢
        omega
      · rw [ht2, ht1, List.append_assoc]

theorem runActs_append (res : BwKey → List Block) :
    ∀ (xs ys : List BwKey) (b : Balancer),
    runActs res b (xs ++ ys) =
      match runActs res b xs with
      | .ok b1 => runActs res b1 ys
      | .error e => .error e := by
  intro xs
  induction xs with
  | nil => intro ys b; rfl
  | cons k ks ih =>
    intro ys b
    rw [List.cons_append, runActs_cons, runActs_cons]
    rcases h : add_samples_for_act b (res k) with e | b1
    · rfl
    · exact ih ys b1

theorem runActs_resState_config (res : BwKey → List Block) :
    ∀ (ks : List BwKey) (b : Balancer),
    sameConfig (resState (runActs res b ks)) b := by
  intro ks
  induction ks with
  | nil => intro b; exact sameConfig_refl b
  | cons k kt ih =>
    intro b
    rw [runActs_cons]
    rcases h : add_samples_for_act b (res k) with e | b1
    · have h1 := runBlocks_resState_config (res k) b
      unfold add_samples_for_act at h
      rw [h] at h1
      exact h1
    · have h1 := runBlocks_resState_config (res k) b
      unfold add_samples_for_act at h
      rw [h] at h1
      exact sameConfig_trans (ih b1) h1

theorem foldPatterns_eq (k : BwKey) (nm : String) :
    ∀ (patterns : List String) (acc : List BwKey),
    patterns.foldl (fun acc2 p => if pyIn p nm then acc2 ++ [k] else acc2) acc =
      acc ++ (patterns.filter (fun p => pyIn p nm)).map (fun _ => k) := by
  intro patterns
  induction patterns with
  | nil => intro acc; simp
  | cons p ps ih =>
    intro acc
    by_cases hp : pyIn p nm <;>
      simp [List.foldl_cons, List.filter_cons, hp, ih]

theorem classify_eq : ∀ (flows : List BwItem) (patterns : List String),
    classify flows patterns =
      flows.flatMap
        (fun ef => (patterns.filter (fun p => pyIn p ef.name)).map
          (fun _ => ef.key)) := by
  have go : ∀ (flows : List BwItem) (patterns : List String) (acc : List BwKey),
      flows.foldl
        (fun acc ef =>
          patterns.foldl
            (fun acc2 p => if pyIn p ef.name then acc2 ++ [ef.key] else acc2)
            acc)
        acc =
        acc ++ flows.flatMap
          (fun ef => (patterns.filter (fun p => pyIn p ef.name)).map
            (fun _ => ef.key)) := by
    intro flows
    induction flows with
    | nil => intro patterns acc; simp
    | cons ef fs ih =>
      intro patterns acc
      rw [List.foldl_cons, foldPatterns_eq ef.key ef.name patterns acc, ih]
      simp [List.flatMap_cons, List.append_assoc]
  intro flows patterns
  rw [classify, go]
  simp

theorem count_map_const (k : BwKey) : ∀ (l : List String),
    List.count k (l.map (fun _ => k)) = l.length := by
  intro l
  induction l with
  | nil => rfl
  | cons x xs ih => simp [List.count_cons, ih]

theorem classify_count_ge {flows : List BwItem} {ef : BwItem}
    (hef : ef ∈ flows) (patterns : List String) :
    (patterns.filter (fun p => pyIn p ef.name)).length ≤
      List.count ef.key (classify flows patterns) := by
  obtain ⟨s, t, hst⟩ := List.append_of_mem hef
  subst hst
  rw [classify_eq]
  rw [List.flatMap_append, List.flatMap_cons]
  rw [List.count_append, List.count_append, count_map_const]
  omega

theorem initBalancer_ok_spec {env : Env} {dbn bio grp : String}
    {fps tps : List String} {b : Balancer}
    (h : initBalancer env dbn bio grp fps tps = .ok b) :
    env.databases.contains dbn = true ∧ env.databases.contains bio = true ∧
    b = { database_name := dbn, biosphere := bio, group := grp,
          matrix_indices := [], matrix_samples := none,
          land_in_keys := classify (env.items bio) fps,
          land_out_keys := classify (env.items bio) tps,
          all_land_keys := classify (env.items bio) fps ++
            classify (env.items bio) tps } := by
  unfold initBalancer at h
  by_cases h1 : env.databases.contains dbn = true
  · rw [if_neg (not_not_intro h1)] at h
    by_cases h2 : env.databases.contains bio = true
    · rw [if_neg (not_not_intro h2)] at h
      rw [Except.ok.injEq] at h
      exact ⟨h1, h2, h.symm⟩
    · rw [if_pos h2] at h
      exact Except.noConfusion h
  · rw [if_pos h1] at h
    exact Except.noConfusion h

theorem initBalancer_missing_db {env : Env} {dbn bio grp : String}
    {fps tps : List String} (h1 : env.databases.contains dbn = false) :
    initBalancer env dbn bio grp fps tps =
      .error ("Database " ++ dbn ++ " not imported") := by
  have h1' : ¬ env.databases.contains dbn = true := fun hc => by
    rw [hc] at h1
    exact Bool.noConfusion h1
  unfold initBalancer
  rw [if_pos h1']

theorem initBalancer_missing_bio {env : Env} {dbn bio grp : String}
    {fps tps : List String} (h1 : env.databases.contains dbn = true)
    (h2 : env.databases.contains bio = false) :
    initBalancer env dbn bio grp fps tps =
      .error ("Database " ++ bio ++ " not imported") := by
  have h2' : ¬ env.databases.contains bio = true := fun hc => by
    rw [hc] at h2
    exact Bool.noConfusion h2
  unfold initBalancer
  rw [if_neg (not_not_intro h1), if_pos h2']

theorem blocksIdxLen_eq_blocksRows : ∀ {blocks : List Block},
    (∀ p ∈ blocks, p.2.length = p.1.rows.length) →
    blocksIdxLen blocks = blocksRows blocks := by
  intro blocks
  induction blocks with
  | nil => intro _; rfl
  | cons p rest ih =>
    intro hsh
    simp only [blocksIdxLen, blocksRows, List.map_cons, List.sum_cons]
    rw [hsh p (by simp)]
    have := ih (fun q hq => hsh q (by simp [hq]))
    simp only [blocksIdxLen, blocksRows] at this
    rw [this]

theorem callsIdxLen_eq_callsRows : ∀ {calls : List (List Block)},
    (∀ c ∈ calls, ∀ p ∈ c, p.2.length = p.1.rows.length) →
    callsIdxLen calls = callsRows calls := by
  intro calls
  induction calls with
  | nil => intro _; rfl
  | cons c cs ih =>
    intro hsh
    simp only [callsIdxLen, callsRows, List.map_cons, List.sum_cons]
    rw [blocksIdxLen_eq_blocksRows (hsh c (by simp))]
    have := ih (fun d hd => hsh d (by simp [hd]))
    simp only [callsIdxLen, callsRows] at this
    rw [this]

/-- Claim C1: starting from a successfully constructed balancer, after every
successful `add_samples_for_act` call in a sequence the index-list length
equals the sample-matrix row count, the row count equals the sum of the row
counts of all numeric blocks yielded so far (also at every intermediate
call), and `matrix_indices` only grows — provided every yielded index block
has as many entries as its numeric block has rows. -/
theorem claim_C1_monotonic_accumulation {env : Env} {dbn bio grp : String}
    {fps tps : List String} {b b' : Balancer} {calls : List (List Block)}
    (hinit : initBalancer env dbn bio grp fps tps = .ok b)
    (hsh : ∀ c ∈ calls, ∀ p ∈ c, p.2.length = p.1.rows.length)
    (hok : runCalls b calls = .ok b') :
    b'.matrix_indices.length = sampleRows b' ∧
    sampleRows b' = callsRows calls ∧
    (∃ t, b'.matrix_indices = b.matrix_indices ++ t) ∧
    (∀ pre post, calls = pre ++ post →
      ∃ bm, runCalls b pre = .ok bm ∧
        bm.matrix_indices.length = sampleRows bm ∧
        sampleRows bm = callsRows pre ∧
        (∃ t, b'.matrix_indices = bm.matrix_indices ++ t)) := by
  obtain ⟨-, -, hb⟩ := initBalancer_ok_spec hinit
  have hb_idx : b.matrix_indices.length = 0 := by rw [hb]; rfl
  have hb_rows : sampleRows b = 0 := by rw [hb]; rfl
  obtain ⟨hlen, hrows, hgrow, -⟩ := runCalls_ok_spec hok
  rw [callsIdxLen_eq_callsRows hsh] at hlen
  refine ⟨by omega, by omega, hgrow, ?_⟩
  intro pre post heq
  subst heq
  rw [runCalls_append] at hok
  rcases hpre2 : runCalls b pre with e | bm
  · rw [hpre2] at hok
    exact Except.noConfusion hok
  · rw [hpre2] at hok
    have hsh_pre : ∀ c ∈ pre, ∀ p ∈ c, p.2.length = p.1.rows.length :=
      fun c hc => hsh c (List.mem_append.mpr (Or.inl hc))
    obtain ⟨hlen1, hrows1, -, -⟩ := runCalls_ok_spec hpre2
    rw [callsIdxLen_eq_callsRows hsh_pre] at hlen1
    obtain ⟨-, -, ⟨t2, ht2⟩, -⟩ :=
      runCalls_ok_spec (show runCalls bm post = .ok b' from hok)
    exact ⟨bm, rfl, by omega, by omega, ⟨t2, ht2⟩⟩

/-- Instantiation of claim C1 on a concrete balancer and two calls. -/
theorem claim_C1_witness :
    runCalls bal0 [[(mat3a, idx2a)], [(mat3b, idx3b)]] = .ok balC1 ∧
    balC1.matrix_indices.length = sampleRows balC1 ∧
    sampleRows balC1 = callsRows [[(mat3a, idx2a)], [(mat3b, idx3b)]] := by
  have h := claim_C1_monotonic_accumulation
    (rfl : initBalancer env0 "db" = .ok bal0)
    (by decide)
    (rfl : runCalls bal0 [[(mat3a, idx2a)], [(mat3b, idx3b)]] = .ok balC1)
  exact ⟨rfl, h.1, h.2.1⟩

/-- Claim C2: within one yielded (numeric-block, index-block) pair processed
successfully, 2-element index entries are appended to `matrix_indices` as
3-element tuples tagged "biosphere", and 3-element entries are appended
unchanged and in order. -/
theorem claim_C2_index_normalization {b : Balancer} {num : NpMat}
    {idx : List IdxEntry} {b' : Balancer}
    (hok : processPair b num idx = .ok b') :
    ((∀ e ∈ idx, e.len = 2) →
      b'.matrix_indices = b.matrix_indices ++
        idx.map (fun e => IdxEntry.three e.at0 e.at1 "biosphere")) ∧
    ((∀ e ∈ idx, e.len = 3) →
      b'.matrix_indices = b.matrix_indices ++ idx) := by
  obtain ⟨hidx, -, -, hne, -⟩ := processPair_ok_spec hok
  constructor
  · intro h2
    rw [hidx]
    match idx, hne with
    | e0 :: rest, _ =>
      have he0 : e0.len = 2 := h2 e0 (by simp)
      simp [appliedIdx, he0]
  · intro h3
    rw [hidx]
    match idx, hne with
    | e0 :: rest, _ =>
      have he0 : ¬ e0.len = 2 := by
        rw [h3 e0 (by simp)]
        omega
      simp [appliedIdx, he0]

/-- Instantiation of claim C2 on one all-2-tuple block and one all-3-tuple
block. -/
theorem claim_C2_witness :
    balA.matrix_indices = bal0.matrix_indices ++
      idx2a.map (fun e => IdxEntry.three e.at0 e.at1 "biosphere") ∧
    balB.matrix_indices = bal0.matrix_indices ++ idx3b := by
  constructor
  · exact (claim_C2_index_normalization
      (rfl : processPair bal0 mat3a idx2a = .ok balA)).1 (by decide)
  · exact (claim_C2_index_normalization
      (rfl : processPair bal0 mat3b idx3b = .ok balB)).2 (by decide)

/-- Claim C3: for every successfully constructed balancer, `all_land_keys`
is exactly `land_in_keys ++ land_out_keys`, hence its length is the sum of
the two lengths and order is preserved. -/
theorem claim_C3_all_land_keys_concat {env : Env} {dbn bio grp : String}
    {fps tps : List String} {b : Balancer}
    (h : initBalancer env dbn bio grp fps tps = .ok b) :
    b.all_land_keys = b.land_in_keys ++ b.land_out_keys ∧
    b.all_land_keys.length = b.land_in_keys.length + b.land_out_keys.length := by
  obtain ⟨-, -, hb⟩ := initBalancer_ok_spec h
  subst hb
  exact ⟨rfl, by simp⟩

/-- Instantiation of claim C3 on a concrete environment. -/
theorem claim_C3_witness :
    bal0.all_land_keys = bal0.land_in_keys ++ bal0.land_out_keys ∧
    bal0.all_land_keys.length =
      bal0.land_in_keys.length + bal0.land_out_keys.length :=
  claim_C3_all_land_keys_concat (rfl : initBalancer env0 "db" = .ok bal0)

/-- Claim C4: the classifier records, in registry iteration order, one key
per (flow, matching pattern) pair: `land_in_keys` lists `ef.key` once for
every "from" pattern contained in `ef`'s name, `land_out_keys` likewise for
"to" patterns; consequently every flow whose name contains a matching
pattern is listed, and a flow whose name contains two patterns of one
category appears (at least) twice in that category's list. -/
theorem claim_C4_classifier {env : Env} {dbn bio grp : String}
    {fps tps : List String} {b : Balancer}
    (h : initBalancer env dbn bio grp fps tps = .ok b) :
    b.land_in_keys =
      (env.items bio).flatMap
        (fun ef => (fps.filter (fun p => pyIn p ef.name)).map
          (fun _ => ef.key)) ∧
    b.land_out_keys =
      (env.items bio).flatMap
        (fun ef => (tps.filter (fun p => pyIn p ef.name)).map
          (fun _ => ef.key)) ∧
    (∀ ef ∈ env.items bio,
      (fps.filter (fun p => pyIn p ef.name)).length ≤
        List.count ef.key b.land_in_keys) ∧
    (∀ ef ∈ env.items bio,
      (tps.filter (fun p => pyIn p ef.name)).length ≤
        List.count ef.key b.land_out_keys) ∧
    (∀ ef ∈ env.items bio, (∃ p ∈ fps, pyIn p ef.name) →
      ef.key ∈ b.land_in_keys) ∧
    (∀ ef ∈ env.items bio, (∃ p ∈ tps, pyIn p ef.name) →
      ef.key ∈ b.land_out_keys) := by
  obtain ⟨-, -, hb⟩ := initBalancer_ok_spec h
  subst hb
  refine ⟨classify_eq _ _, classify_eq _ _,
    fun ef hef => classify_count_ge hef fps,
    fun ef hef => classify_count_ge hef tps,
    fun ef hef hex => ?_, fun ef hef hex => ?_⟩
  · obtain ⟨p, hp, hmatch⟩ := hex
    show ef.key ∈ classify (env.items bio) fps
    rw [classify_eq]
    exact List.mem_flatMap.mpr
      ⟨ef, hef, List.mem_map.mpr ⟨p, List.mem_filter.mpr ⟨hp, hmatch⟩, rfl⟩⟩
  · obtain ⟨p, hp, hmatch⟩ := hex
    show ef.key ∈ classify (env.items bio) tps
    rw [classify_eq]
    exact List.mem_flatMap.mpr
      ⟨ef, hef, List.mem_map.mpr ⟨p, List.mem_filter.mpr ⟨hp, hmatch⟩, rfl⟩⟩

/-- Instantiation of claim C4 with overlapping from-patterns: the forest
flow matches both patterns and its key is recorded twice. -/
theorem claim_C4_witness :
    balDup.land_in_keys =
      (env0.items "biosphere3").flatMap
        (fun ef => ((["Transformation, from", "Transformation,"]).filter
          (fun p => pyIn p ef.name)).map (fun _ => ef.key)) ∧
    2 ≤ List.count (("biosphere3", "f1") : BwKey) balDup.land_in_keys ∧
    (("biosphere3", "f1") : BwKey) ∈ balDup.land_in_keys := by
  have h := claim_C4_classifier
    (rfl : initBalancer env0 "db" "biosphere3" "land"
      ["Transformation, from", "Transformation,"] ["Transformation, to"] =
        .ok balDup)
  refine ⟨h.1, ?_, ?_⟩
  · have hc := h.2.2.1 ⟨"Transformation, from forest", ("biosphere3", "f1")⟩
      (by simp [env0])
    calc (2 : Nat) = ((["Transformation, from", "Transformation,"]).filter
          (fun p => pyIn p "Transformation, from forest")).length := by decide
      _ ≤ _ := hc
  · exact h.2.2.2.2.1 ⟨"Transformation, from forest", ("biosphere3", "f1")⟩
      (by simp [env0]) ⟨"Transformation, from", by simp, by decide⟩

/-- Claim C5: construction with an unregistered inventory-database name or
biosphere name raises the descriptive `ValueError` and yields no balancer;
successful construction starts with `matrix_indices = []` and
`matrix_samples` unset. -/
theorem claim_C5_init_validation (env : Env) (dbn bio grp : String)
    (fps tps : List String) :
    (env.databases.contains dbn = false →
      initBalancer env dbn bio grp fps tps =
        .error ("Database " ++ dbn ++ " not imported")) ∧
    (env.databases.contains dbn = true →
      env.databases.contains bio = false →
      initBalancer env dbn bio grp fps tps =
        .error ("Database " ++ bio ++ " not imported")) ∧
    (∀ b, initBalancer env dbn bio grp fps tps = .ok b →
      b.matrix_indices = [] ∧ b.matrix_samples = none) := by
  refine ⟨fun h1 => initBalancer_missing_db h1,
    fun h1 h2 => initBalancer_missing_bio h1 h2, fun b h => ?_⟩
  obtain ⟨-, -, hb⟩ := initBalancer_ok_spec h
  subst hb
  exact ⟨rfl, rfl⟩

/-- Instantiation of claim C5: a missing inventory database, a missing
biosphere, and a successful construction. -/
theorem claim_C5_witness :
    initBalancer env0 "nope" "biosphere3" "land"
      ["Transformation, from"] ["Transformation, to"] =
      .error "Database nope not imported" ∧
    initBalancer env0 "db" "nobio" "land"
      ["Transformation, from"] ["Transformation, to"] =
      .error "Database nobio not imported" ∧
    bal0.matrix_indices = [] ∧ bal0.matrix_samples = none :=
  ⟨(claim_C5_init_validation env0 "nope" "biosphere3" "land"
      ["Transformation, from"] ["Transformation, to"]).1 rfl,
   (claim_C5_init_validation env0 "db" "nobio" "land"
      ["Transformation, from"] ["Transformation, to"]).2.1 rfl rfl,
   (claim_C5_init_validation env0 "db" "biosphere3" "land"
      ["Transformation, from"] ["Transformation, to"]).2.2 bal0
      (rfl : initBalancer env0 "db" = .ok bal0)⟩

/-- Claim C7: calling `add_samples_for_act` when the first yielded numeric
block's column width differs from the accumulated sample matrix's fails
during `np.concatenate` and the `ValueError` propagates uncaught out of the
call. -/
theorem claim_C7_width_mismatch {b : Balancer} {m num : NpMat}
    {idx : List IdxEntry} (rest : List Block)
    (hs : b.matrix_samples = some m) (hc : ¬ num.ncols = m.ncols)
    (hne : idx ≠ []) :
    add_samples_for_act b ((num, idx) :: rest) =
      .error (concatErrMsg,
        { b with matrix_indices := b.matrix_indices ++ appliedIdx idx }) :=
  runBlocks_first_error (processPair_mismatch hs hc hne)

/-- Instantiation of claim C7: 100 iterations accumulated, then a
50-column block. -/
theorem claim_C7_witness :
    add_samples_for_act bal100 [(mat50, idxT)] =
      .error (concatErrMsg,
        { bal100 with matrix_indices := bal100.matrix_indices ++ appliedIdx idxT }) :=
  claim_C7_width_mismatch [] (rfl : bal100.matrix_samples = some mat100)
    (by decide) (by decide)

/-- Claim C10: `add_samples_for_act` is not atomic on error — when the
concatenation for a pair fails, the error-time state already contains the
pair's index entries while `matrix_samples` is unchanged, so the
index-length-equals-row-count correspondence is broken. -/
theorem claim_C10_nonatomic {b : Balancer} {m num : NpMat}
    {idx : List IdxEntry}
    (hs : b.matrix_samples = some m) (hc : ¬ num.ncols = m.ncols)
    (hne : idx ≠ []) (hinv : b.matrix_indices.length = sampleRows b) :
    processPair b num idx =
      .error (concatErrMsg,
        { b with matrix_indices := b.matrix_indices ++ appliedIdx idx }) ∧
    ({ b with matrix_indices := b.matrix_indices ++ appliedIdx idx } :
        Balancer).matrix_samples = b.matrix_samples ∧
    ({ b with matrix_indices := b.matrix_indices ++ appliedIdx idx } :
        Balancer).matrix_indices.length =
      b.matrix_indices.length + idx.length ∧
    ¬ ({ b with matrix_indices := b.matrix_indices ++ appliedIdx idx } :
        Balancer).matrix_indices.length =
      sampleRows { b with matrix_indices := b.matrix_indices ++ appliedIdx idx } := by
  refine ⟨processPair_mismatch hs hc hne, rfl, ?_, ?_⟩
  · simp [appliedIdx_length]
  · have hrows : sampleRows { b with
        matrix_indices := b.matrix_indices ++ appliedIdx idx } = sampleRows b := by
      simp [sampleRows]
    have hpos : 0 < idx.length := List.length_pos.mpr hne
    have hlen : (b.matrix_indices ++ appliedIdx idx).length =
        b.matrix_indices.length + idx.length := by
      simp [appliedIdx_length]
    simp only [hrows, hlen]
    omega

/-- Instantiation of claim C10 on a concrete mismatch. -/
theorem claim_C10_witness :
    processPair bal100 mat50 idxT =
      .error (concatErrMsg,
        { bal100 with matrix_indices := bal100.matrix_indices ++ appliedIdx idxT }) ∧
    ({ bal100 with matrix_indices := bal100.matrix_indices ++ appliedIdx idxT } :
        Balancer).matrix_samples = bal100.matrix_samples ∧
    ({ bal100 with matrix_indices := bal100.matrix_indices ++ appliedIdx idxT } :
        Balancer).matrix_indices.length =
      bal100.matrix_indices.length + idxT.length ∧
    ¬ ({ bal100 with matrix_indices := bal100.matrix_indices ++ appliedIdx idxT } :
        Balancer).matrix_indices.length =
      sampleRows { bal100 with
        matrix_indices := bal100.matrix_indices ++ appliedIdx idxT } :=
  claim_C10_nonatomic (rfl : bal100.matrix_samples = some mat100)
    (by decide) (by decide) rfl

/-- Claim C8: `add_samples_for_all_acts` snapshots the activity keys of the
target database, processes them sequentially in registry order via
`add_samples_for_act`, and aborts the whole batch with the first
per-activity failure (no activity skipped, no retry). -/
theorem claim_C8_all_acts_sequential (env : Env) (res : BwKey → List Block)
    (b : Balancer) :
    add_samples_for_all_acts env res b =
      runActs res b ((env.items b.database_name).map BwItem.key) ∧
    (∀ pre post bm,
      (env.items b.database_name).map BwItem.key = pre ++ post →
      runActs res b pre = .ok bm →
      add_samples_for_all_acts env res b = runActs res bm post) ∧
    (∀ pre k post bm e,
      (env.items b.database_name).map BwItem.key = pre ++ k :: post →
      runActs res b pre = .ok bm →
      add_samples_for_act bm (res k) = .error e →
      add_samples_for_all_acts env res b = .error e) := by
  refine ⟨rfl, ?_, ?_⟩
  · intro pre post bm heq hpre
    rw [add_samples_for_all_acts, heq, runActs_append, hpre]
  · intro pre k post bm e heq hpre herr
    rw [add_samples_for_all_acts, heq, runActs_append, hpre]
    show runActs res bm (k :: post) = .error e
    rw [runActs_cons, herr]

/-- Instantiation of claim C8: a one-activity database processed in order,
and the batch aborting on a malformed resampler output. -/
theorem claim_C8_witness :
    add_samples_for_all_acts env0 res0 bal0 =
      runActs res0 bal0 [(("db", "a1") : BwKey)] ∧
    add_samples_for_all_acts env0 res0 bal0 = .ok balA ∧
    add_samples_for_all_acts env0 resBad bal0 =
      .error ("IndexError: list index out of range", bal0) := by
  refine ⟨(claim_C8_all_acts_sequential env0 res0 bal0).1, ?_, ?_⟩
  · have h := (claim_C8_all_acts_sequential env0 res0 bal0).2.1
      [] [("db", "a1")] bal0 rfl rfl
    rw [h]
    rfl
  · exact (claim_C8_all_acts_sequential env0 resBad bal0).2.2
      [] ("db", "a1") [] bal0 ("IndexError: list index out of range", bal0)
      rfl rfl rfl

/-- Claim C9: `create_presamples` is a non-destructive read — it returns the
balancer state unchanged, so repeating it over the same state yields the
same outcome — and no accumulation operation (normal or raising) mutates
the configuration or the land-flow classification lists after
construction. -/
theorem claim_C9_frame {α : Type} (split : NpMat → List IdxEntry → α)
    (writer : α → Option String → Option String → Bool → Option String →
      Seed → String × String)
    (b : Balancer) (name id_ : Option String) (ow : Bool)
    (dp : Option String) (seed : Seed) (blocks : List Block) (env : Env)
    (res : BwKey → List Block) :
    (create_presamples split writer b name id_ ow dp seed).2 = b ∧
    (create_presamples split writer
        (create_presamples split writer b name id_ ow dp seed).2
        name id_ ow dp seed).1 =
      (create_presamples split writer b name id_ ow dp seed).1 ∧
    sameConfig (resState (add_samples_for_act b blocks)) b ∧
    sameConfig (resState (add_samples_for_all_acts env res b)) b := by
  have h2 : (create_presamples split writer b name id_ ow dp seed).2 = b := by
    unfold create_presamples
    rcases hms : b.matrix_samples with _ | m
    · rfl
    · by_cases hi : b.matrix_indices.isEmpty <;> simp [hi]
  refine ⟨h2, by rw [h2], runBlocks_resState_config blocks b, ?_⟩
  exact runActs_resState_config res ((env.items b.database_name).map BwItem.key) b

/-- Counterexample to claim C6 as stated: `add_samples_for_act` succeeds
when the resampler yields no pairs, leaving the accumulation state empty,
and a subsequent `create_presamples` still warns and returns nothing
instead of returning an (id, dirpath) pair. -/
theorem claim_C6_counterexample :
    initBalancer env0 "db" = .ok bal0 ∧
    add_samples_for_act bal0 [] = .ok bal0 ∧
    (create_presamples split0 writer0 bal0 none none false none
      Seed.sequential).1 = CPResult.warned :=
  ⟨rfl, rfl, rfl⟩

/-- Claim C6 (amended): `create_presamples` on a balancer whose sample
matrix is unset or whose index list is empty warns and returns nothing;
after a successful `add_samples_for_act` during which the resampler yielded
at least one pair, it returns the (id, dirpath) pair produced by the
external package writer. -/
theorem claim_C6_create_presamples {α : Type} (split : NpMat → List IdxEntry → α)
    (writer : α → Option String → Option String → Bool → Option String →
      Seed → String × String)
    (b : Balancer) (name id_ : Option String) (ow : Bool)
    (dp : Option String) (seed : Seed) :
    (b.matrix_samples = none ∨ b.matrix_indices = [] →
      (create_presamples split writer b name id_ ow dp seed).1 =
        CPResult.warned) ∧
    (∀ b' num idx rest,
      add_samples_for_act b ((num, idx) :: rest) = .ok b' →
      ∃ m, b'.matrix_samples = some m ∧
        (create_presamples split writer b' name id_ ow dp seed).1 =
          CPResult.written
            (writer (split m b'.matrix_indices) name id_ ow dp seed).1
            (writer (split m b'.matrix_indices) name id_ ow dp seed).2) := by
  constructor
  · intro hempty
    unfold create_presamples
    rcases hms : b.matrix_samples with _ | m
    · rfl
    · rcases hempty with hnone | hnil
      · rw [hms] at hnone
        exact Option.noConfusion hnone
      · simp [hnil]
  · intro b' num idx rest h
    rw [add_samples_for_act, runBlocks_cons] at h
    rcases hp : processPair b num idx with e | b1
    · rw [hp] at h
      exact Except.noConfusion h
    · rw [hp] at h
      obtain ⟨hidx1, -, ⟨m1, hm1⟩, hne1, -⟩ := processPair_ok_spec hp
      have hb1len : 0 < b1.matrix_indices.length := by
        rw [hidx1]
        have := appliedIdx_length idx
        have hpos : 0 < idx.length := List.length_pos.mpr hne1
        simp only [List.length_append]
        omega
      obtain ⟨hlen2, -, ⟨t2, ht2⟩, -, hsome2⟩ :=
        runBlocks_ok_spec (show runBlocks b1 rest = .ok b' from h)
      have hsome : ∃ m, b'.matrix_samples = some m := by
        match rest, h with
        | [], h =>
          have hb : b1 = b' := by
            simpa [runBlocks, Except.ok.injEq] using h
          exact ⟨m1, by rw [← hb, hm1]⟩
        | r :: rs, h =>
          exact Option.isSome_iff_exists.mp (hsome2 (by simp))
      obtain ⟨m, hm⟩ := hsome
      refine ⟨m, hm, ?_⟩
      have hne' : b'.matrix_indices.isEmpty = false := by
        have : 0 < b'.matrix_indices.length := by omega
        rcases hbi : b'.matrix_indices with _ | ⟨x, xs⟩
        · rw [hbi] at this
          simp at this
        · rfl
      unfold create_presamples
      rw [hm, hne']
      simp

/-- Instantiation of claim C6 (amended): warn on the fresh balancer, return
the writer's pair after one successful non-empty accumulation call. -/
theorem claim_C6_witness :
    (create_presamples split0 writer0 bal0 none none false none
      Seed.sequential).1 = CPResult.warned ∧
    (create_presamples split0 writer0 balA none none false none
      Seed.sequential).1 = CPResult.written "pkg-id" "pkg-dir" := by
  constructor
  · exact (claim_C6_create_presamples split0 writer0 bal0 none none false
      none Seed.sequential).1 (Or.inl rfl)
  · obtain ⟨m, hm, hw⟩ := (claim_C6_create_presamples split0 writer0 bal0
      none none false none Seed.sequential).2 balA mat3a idx2a [] rfl
    rw [hw]
    rfl
